import Mathlib

/-!
Verification of the tcping repository core (package `ping`):
the error normalizer (`utils.go` `FormatError`, `ping.go` `Pinger.formatError`),
the statistics accumulator and scheduler loop (`ping.go` `Pinger.Ping`,
`Pinger.logStats`, `Pinger.Summarize`), the protocol registry
(`Register`/`Load`) and the `Result` summary type.

Go `error` values relevant to the normalizer are embedded as the inductive
`GoError`; Go interface method dispatch (`net.Error`, `Timeout()`,
`Temporary()`), `errors.Is` unwrapping and `strings.Contains` are modelled
explicitly, following the documented Go standard-library semantics.
Durations (`time.Duration`, an `int64` nanosecond count) are `Int` with
explicit 64-bit wraparound where the code accumulates them.
-/

/-- Linux `syscall.Errno` numbering for the two values `FormatError` names. -/
def ECONNREFUSED : Nat := 111

/-- Linux errno for a connection timeout. -/
def ETIMEDOUT : Nat := 110

/-- Linux errno EAGAIN (= EWOULDBLOCK on Linux), part of `Errno.Timeout()`. -/
def EAGAIN : Nat := 11

/-- Errnos for which Go `syscall.Errno.Temporary()` holds directly
(EINTR, EMFILE, ENFILE, ENOBUFS), besides the timeout errnos. -/
def tempErrnos : List Nat := [4, 24, 23, 105]

/-- Embedding of the Go `error` values that can reach the normalizer:
the `context` sentinels, `io.EOF`, plain `errors.New` errors, `fmt.Errorf`
wrapping (`%w`), `*url.Error`, `*net.OpError`, `*net.DNSError`,
`*os.SyscallError` and `syscall.Errno`. -/
inductive GoError where
  | deadlineExceeded : GoError
  | canceled : GoError
  | eof : GoError
  | basic (text : String) : GoError
  | wrapf (pre post : String) (inner : GoError) : GoError
  | urlErr (op urlStr : String) (inner : GoError) : GoError
  | opErr (op : String) (inner : GoError) : GoError
  | dnsErr (text : String) (isTimeout isTemporary : Bool) : GoError
  | syscallErr (sys : String) (inner : GoError) : GoError
  | errno (n : Nat) : GoError
deriving DecidableEq, Repr

/-- Text of `syscall.Errno.Error()` for the errnos the code inspects. -/
def errnoText (n : Nat) : String :=
  if n = ECONNREFUSED then "connection refused"
  else if n = ETIMEDOUT then "connection timed out"
  else "errno " ++ toString n

/-- Go `err.Error()`: the error text, built the way each concrete Go type
builds it (wrappers interpolate the inner text). -/
def GoError.errorText : GoError → String
  | .deadlineExceeded => "context deadline exceeded"
  | .canceled => "context canceled"
  | .eof => "EOF"
  | .basic t => t
  | .wrapf pre post e => pre ++ e.errorText ++ post
  | .urlErr op u e => op ++ " \x22" ++ u ++ "\x22: " ++ e.errorText
  | .opErr op e => op ++ ": " ++ e.errorText
  | .dnsErr t _ _ => t
  | .syscallErr sys e => sys ++ ": " ++ e.errorText
  | .errno n => errnoText n

/-- Whether the dynamic type implements `interface \x7b Timeout() bool \x7d`:
true for `*url.Error`, `*net.OpError`, `*net.DNSError`, `*os.SyscallError`,
`syscall.Errno` and the context-package `deadlineExceededError`. -/
def GoError.hasTimeoutMethod : GoError → Bool
  | .deadlineExceeded => true
  | .urlErr _ _ _ => true
  | .opErr _ _ => true
  | .dnsErr _ _ _ => true
  | .syscallErr _ _ => true
  | .errno _ => true
  | _ => false

/-- Value of the Go `Timeout()` method (false where the method is absent):
`url.Error`/`os.SyscallError` delegate to the wrapped error when it has the
method; `net.OpError` short-circuits through an `os.SyscallError`;
`DNSError` reports its `IsTimeout` field; `Errno` compares against
EAGAIN/EWOULDBLOCK/ETIMEDOUT; the context deadline error returns true. -/
def GoError.timeoutVal : GoError → Bool
  | .deadlineExceeded => true
  | .urlErr _ _ e => e.hasTimeoutMethod && e.timeoutVal
  | .opErr _ (.syscallErr _ e2) => e2.hasTimeoutMethod && e2.timeoutVal
  | .opErr _ e => e.hasTimeoutMethod && e.timeoutVal
  | .dnsErr _ isT _ => isT
  | .syscallErr _ e => e.hasTimeoutMethod && e.timeoutVal
  | .errno n => n == ETIMEDOUT || n == EAGAIN
  | _ => false

/-- Whether the dynamic type implements `interface \x7b Temporary() bool \x7d`.
Unlike `Timeout()`, `os.SyscallError` does not have `Temporary()`. -/
def GoError.hasTemporaryMethod : GoError → Bool
  | .deadlineExceeded => true
  | .urlErr _ _ _ => true
  | .opErr _ _ => true
  | .dnsErr _ _ _ => true
  | .errno _ => true
  | _ => false

/-- Value of the Go `Temporary()` method (false where absent), per the Go
standard library: `DNSError.Temporary = IsTimeout || IsTemporary`,
`Errno.Temporary = e in \x7bEINTR,EMFILE,ENFILE,ENOBUFS\x7d || e.Timeout()`,
`OpError` short-circuits through an `os.SyscallError` to its cause. -/
def GoError.temporaryVal : GoError → Bool
  | .deadlineExceeded => true
  | .urlErr _ _ e => e.hasTemporaryMethod && e.temporaryVal
  | .opErr _ (.syscallErr _ e2) => e2.hasTemporaryMethod && e2.temporaryVal
  | .opErr _ e => e.hasTemporaryMethod && e.temporaryVal
  | .dnsErr _ isT isTmp => isT || isTmp
  | .errno n => n ∈ tempErrnos || (GoError.errno n).timeoutVal
  | _ => false

/-- Whether the dynamic type satisfies the `net.Error` interface
(`Error()`, `Timeout()`, `Temporary()`). `*os.SyscallError` lacks
`Temporary()` and plain/wrapped errors lack both methods. -/
def GoError.isNetError : GoError → Bool
  | .deadlineExceeded => true
  | .urlErr _ _ _ => true
  | .opErr _ _ => true
  | .dnsErr _ _ _ => true
  | .errno _ => true
  | _ => false

/-- Go `errors.Is(e, target)` for the sentinel targets used by the code:
equality at each layer, unwrapping through the types that define
`Unwrap()` (`fmt.Errorf` wrappers, `url.Error`, `net.OpError`,
`os.SyscallError`). -/
def goErrorsIs (e target : GoError) : Bool :=
  e == target ||
    match e with
    | .wrapf _ _ i => goErrorsIs i target
    | .urlErr _ _ i => goErrorsIs i target
    | .opErr _ i => goErrorsIs i target
    | .syscallErr _ i => goErrorsIs i target
    | _ => false

/-- Go `strings.Contains s sub` via substring search on the character list. -/
def goContainsAux (sub : List Char) : List Char → Bool
  | [] => sub.isEmpty
  | c :: cs => sub.isPrefixOf (c :: cs) || goContainsAux sub cs

/-- Go `strings.Contains`. -/
def goContains (s sub : String) : Bool :=
  goContainsAux sub.data s.data

/-- The ordered substring-fallback chain shared verbatim by
`utils.go` lines 112-155 and `ping.go` lines 270-313: first match wins,
otherwise the original error text is returned unmodified. -/
def substFallback (t : String) : String :=
  if goContains t "forcibly closed" then "远程主机强行关闭了现有连接"
  else if goContains t "because it doesn\x27t contain any IP SANs" then "无法验证证书"
  else if goContains t "no such host" then "无效域名"
  else if goContains t "getaddrinfow" then "域名解析错误"
  else if goContains t "closed network connection" then "使用已关闭的网络连接"
  else if goContains t "connection refused" then "连接被拒绝"
  else if goContains t "server gave HTTP response to HTTPS client" then "服务器需要https访问"
  else if goContains t "x509: certificate is not valid" then "无效的网站证书"
  else if goContains t "x509: certificate is valid" then "网站证书不匹配"
  else if goContains t "actively refused it" then "无法建立连接"
  else if goContains t "was forcibly closed by the remote host" then "远程主机强制关闭了现有连接"
  else t

/-- The part of the normalizer after the leading type switch
(`utils.go` lines 80-155): the `io.EOF` identity check, the `net.Error`
timeout/temporary checks, the `*net.OpError` cause switch, then the
substring fallback on the raw error text. -/
def formatErrorTail (err : GoError) : String :=
  if err == .eof then "网络主动断开"
  else if err.isNetError && err.timeoutVal then "网络连接超时"
  else if err.isNetError && err.temporaryVal then "网络临时错误"
  else
    match err with
    | .opErr _ (.dnsErr _ _ _) => "域名解析错误"
    | .opErr _ (.syscallErr _ (.errno n)) =>
        if n = ECONNREFUSED then "连接被服务器拒绝"
        else if n = ETIMEDOUT then "网络连接超时"
        else substFallback err.errorText
    | _ => substFallback err.errorText

/-- The normalizer, parameterized by the first-tier timeout string, which is
the only difference between `utils.go` `FormatError` ("连接超时") and
`ping.go` `(*Pinger).formatError` ("超时"): the leading type switch —
`*url.Error` (return timeout or recurse on the cause), `net.Error`
(return timeout, or recurse through `OpError`/`SyscallError` on the cause),
default (`errors.Is(err, context.DeadlineExceeded)`) — then the tail. -/
def formatErrorCore (timeoutText : String) : GoError → String
  | .urlErr _ _ inner =>
      if inner.hasTimeoutMethod && inner.timeoutVal then timeoutText
      else formatErrorCore timeoutText inner
  | err =>
      if err.isNetError then
        if err.timeoutVal then timeoutText
        else
          match err with
          | .opErr _ (.syscallErr _ ie) => formatErrorCore timeoutText ie
          | _ => formatErrorTail err
      else
        if goErrorsIs err .deadlineExceeded then timeoutText
        else formatErrorTail err

/-- `utils.go` `FormatError`. -/
def FormatError : GoError → String := formatErrorCore "连接超时"

/-- `ping.go` `(*Pinger).formatError` (identical to `FormatError` with the
first-tier timeout string "超时"). -/
def pingerFormatError : GoError → String := formatErrorCore "超时"

/-- The fixed ordered table behind `substFallback`, in source order. -/
def substTable : List (String × String) :=
  [("forcibly closed", "远程主机强行关闭了现有连接"),
   ("because it doesn\x27t contain any IP SANs", "无法验证证书"),
   ("no such host", "无效域名"),
   ("getaddrinfow", "域名解析错误"),
   ("closed network connection", "使用已关闭的网络连接"),
   ("connection refused", "连接被拒绝"),
   ("server gave HTTP response to HTTPS client", "服务器需要https访问"),
   ("x509: certificate is not valid", "无效的网站证书"),
   ("x509: certificate is valid", "网站证书不匹配"),
   ("actively refused it", "无法建立连接"),
   ("was forcibly closed by the remote host", "远程主机强制关闭了现有连接")]

/-- First-match-wins lookup over an ordered phrase table. -/
def firstMatchIn (t : String) : List (String × String) → Option String
  | [] => none
  | (phrase, cat) :: rest => if goContains t phrase then some cat else firstMatchIn t rest

/-- First-match-wins lookup over the ordered substring table. -/
def firstMatchCat (t : String) : Option String :=
  firstMatchIn t substTable

/-- The structured (typed-cause) portion of the normalizer tail:
`some` category when one of the identity/interface/cause checks of
`formatErrorTail` fires, `none` when control falls to the substring chain. -/
def tailStructured (err : GoError) : Option String :=
  if err == .eof then some "网络主动断开"
  else if err.isNetError && err.timeoutVal then some "网络连接超时"
  else if err.isNetError && err.temporaryVal then some "网络临时错误"
  else
    match err with
    | .opErr _ (.dnsErr _ _ _) => some "域名解析错误"
    | .opErr _ (.syscallErr _ (.errno n)) =>
        if n = ECONNREFUSED then some "连接被服务器拒绝"
        else if n = ETIMEDOUT then some "网络连接超时"
        else none
    | _ => none

/-- The structured (typed-cause) portion of the whole normalizer, mirroring
the spec tiers (1)-(3): `some` category when a typed check decides the
result, `none` exactly when the normalizer falls back to substring
matching. Used to state that structured checks take precedence. -/
def structuredChecks (timeoutText : String) : GoError → Option String
  | .urlErr _ _ inner =>
      if inner.hasTimeoutMethod && inner.timeoutVal then some timeoutText
      else structuredChecks timeoutText inner
  | err =>
      if err.isNetError then
        if err.timeoutVal then some timeoutText
        else
          match err with
          | .opErr _ (.syscallErr _ ie) => structuredChecks timeoutText ie
          | _ => tailStructured err
      else
        if goErrorsIs err .deadlineExceeded then some timeoutText
        else tailStructured err

/-- Int64 bounds: `math.MaxInt64`, the initial `minDuration` set by
`Pinger.Ping` before the loop. -/
def int64Max : Int := 2 ^ 63 - 1

/-- Smallest int64. -/
def int64Min : Int := -(2 ^ 63)

/-- Go twos-complement int64 wraparound for additions of durations. -/
def wrap64 (x : Int) : Int := (x + 2 ^ 63) % 2 ^ 64 - 2 ^ 63

/-- The Go `Stats` record (`ping.go` lines 94-102): one probe outcome.
`error` is `Option GoError` (`nil` ↦ `none`); durations are int64
nanosecond counts; the metadata map is an association list; `extra` is an
optional stringable block (`nil` ↦ `none`). -/
structure Stats where
  connected : Bool
  error : Option GoError
  duration : Int
  dnsDuration : Int
  address : String
  meta : List (String × String)
  extra : Option String
deriving DecidableEq, Repr

/-- The accumulator/configuration fields of the Go `Pinger` struct
(`ping.go` lines 137-155) that the sequential loop reads and writes. -/
structure Pinger where
  interval : Int
  counter : Int
  minDuration : Int
  maxDuration : Int
  totalDuration : Int
  total : Int
  failedTotal : Int
deriving DecidableEq, Repr

/-- Pinger accumulator state at loop entry: `NewPinger` zero-initializes
the counters and `Pinger.Ping` sets `minDuration = math.MaxInt64`
(`ping.go` line 186) before the first tick. -/
def pingerInit (interval counter : Int) : Pinger :=
  { interval := interval
    counter := counter
    minDuration := int64Max
    maxDuration := 0
    totalDuration := 0
    total := 0
    failedTotal := 0 }

/-- A chunk written to the Pinger output stream by `logStats`, at the
granularity of the print calls of the source: the per-probe formatted line
(with or without a normalized error), the meta suffix appended to the same
line, the line-terminating newline, and the extra block on its own line. -/
inductive WriteChunk where
  | probeLineErr (url address status errText : String) (dur dns : Int) : WriteChunk
  | probeLineOk (url address status : String) (dur dns : Int) : WriteChunk
  | metaChunk (m : String) : WriteChunk
  | newline : WriteChunk
  | extraLine (e : String) : WriteChunk
deriving DecidableEq, Repr

/-- `Stats.FormatMeta` (`ping.go` lines 104-120): keys sorted, `k=v`
pairs joined by single spaces. -/
def formatMeta (meta : List (String × String)) : String :=
  let keys := (meta.map Prod.fst).mergeSort (fun a b => a ≤ b)
  String.intercalate " "
    (keys.map (fun k => k ++ "=" ++ (((meta.find? (fun p => p.1 == k)).map Prod.snd).getD "")))

/-- Whether `errors.Is(stats.Error, context.Canceled)` holds for an
optional error (vacuously false for `nil`). -/
def isCancelError : Option GoError → Bool
  | some g => goErrorsIs g .canceled
  | none => false

/-- `(*Pinger).logStats` (`ping.go` lines 316-350): updates running
min/max against the duration of the record, adds the duration to the cumulative
total (int64 addition), increments the failure count for every non-nil
error, then returns early — writing nothing — when the error is the
cancellation sentinel; otherwise emits the per-probe line (status,
normalized error when present), the meta suffix, a newline, and the
trimmed extra block on its own line when present. Returns the updated
accumulator together with the chunks written to the output stream. -/
def logStats (url : String) (p : Pinger) (s : Stats) : Pinger × List WriteChunk :=
  let p1 := if s.duration < p.minDuration then { p with minDuration := s.duration } else p
  let p2 := if s.duration > p1.maxDuration then { p1 with maxDuration := s.duration } else p1
  let p3 := { p2 with totalDuration := wrap64 (p2.totalDuration + s.duration) }
  let p4 := if s.error.isSome then { p3 with failedTotal := p3.failedTotal + 1 } else p3
  if isCancelError s.error then (p4, [])
  else
    let status := if s.connected then "Connected" else "Failed"
    let first : WriteChunk :=
      match s.error with
      | some g => .probeLineErr url s.address status (pingerFormatError g) s.duration s.dnsDuration
      | none => .probeLineOk url s.address status s.duration s.dnsDuration
    let ws := [first]
      ++ (if s.meta.length > 0 then [WriteChunk.metaChunk (formatMeta s.meta)] else [])
      ++ [WriteChunk.newline]
      ++ (match s.extra with | some e => [WriteChunk.extraLine e.trim] | none => [])
    (p4, ws)

/-- Whether a written chunk completes an output line (carries the
terminating newline). -/
def endsLine : WriteChunk → Bool
  | .newline => true
  | .extraLine _ => true
  | _ => false

/-- Number of complete output lines among the written chunks. -/
def linesWritten (ws : List WriteChunk) : Nat :=
  (ws.filter endsLine).length

/-- One tick of the `Pinger.Ping` loop body as it affects the accumulator
(`ping.go` lines 190-192): `logStats` on the Stats of the probe, then
`p.total++`. -/
def foldTick (url : String) (p : Pinger) (s : Stats) : Pinger :=
  let p1 := (logStats url p s).1
  { p1 with total := p1.total + 1 }

/-- Folding a whole sequence of probe outcomes, in order. -/
def foldTicks (url : String) (p : Pinger) (ss : List Stats) : Pinger :=
  ss.foldl (foldTick url) p

/-- The average printed by `(*Pinger).Summarize` (`ping.go` line 211):
`p.totalDuration / time.Duration(p.total)`, a Go int64 division that is
UNGUARDED — with `total = 0` the Go runtime panics with an
integer-divide-by-zero error, modelled as `Except.error`. Go division
truncates toward zero (`Int.tdiv`). -/
def summarizeAvg (p : Pinger) : Except String Int :=
  if p.total = 0 then Except.error "runtime error: integer divide by zero"
  else Except.ok (Int.tdiv p.totalDuration p.total)

/-- One event consumed by an iteration of the `select` in `Pinger.Ping`
(`ping.go` lines 187-199): either the interval timer fires and the probe
returns the given Stats, or the stop channel is closed. -/
inductive LoopEvent where
  | tick (s : Stats) : LoopEvent
  | stopSig : LoopEvent
deriving DecidableEq, Repr

/-- The `for !stop` loop of `Pinger.Ping` (`ping.go` lines 187-199) over a
schedule of select outcomes: a tick runs the probe, folds the Stats and
increments `total`, stopping when `counter > 0 && total > counter-1`; a
stop signal stops immediately. Returns the final accumulator and whether
the loop has left the running state (`true`) or is still awaiting events
(`false`). -/
def runLoop (url : String) (p : Pinger) : List LoopEvent → Pinger × Bool
  | [] => (p, false)
  | .stopSig :: _ => (p, true)
  | .tick s :: evs =>
      let p2 := foldTick url p s
      if p2.counter > 0 ∧ p2.total > p2.counter - 1 then (p2, true)
      else runLoop url p2 evs

/-- The stop-control state of a `Pinger`: the `sync.Once` guard and the
`stopC` channel (`closed` flag). -/
structure StopCtl where
  onceDone : Bool
  chanClosed : Bool
deriving DecidableEq, Repr

/-- `(*Pinger).Stop` (`ping.go` lines 157-161): `stopOnce.Do(close stopC)`
— the close runs only the first time. -/
def pingerStop (st : StopCtl) : StopCtl :=
  if st.onceDone then st else { onceDone := true, chanClosed := true }

/-- Go `type Protocol int`. -/
abbrev Protocol := Int

/-- Protocol constants (`ping.go` lines 48-55, iota numbering). -/
def TCP : Protocol := 0

/-- HTTP protocol constant. -/
def HTTP : Protocol := 1

/-- HTTPS protocol constant. -/
def HTTPS : Protocol := 2

/-- The registry map `pinger` (`ping.go` line 21), as a partial map from
protocol identifier to factory; a Go map lookup miss returns the zero
value (`nil` factory), modelled as `none`. The factory type is opaque to
the registry, hence a type parameter. -/
def emptyRegistry {F : Type} : Protocol → Option F := fun _ => none

/-- `Register` (`ping.go` lines 25-27): store the factory under the
protocol key, silently overwriting. -/
def Register {F : Type} (protocol : Protocol) (factory : F)
    (m : Protocol → Option F) : Protocol → Option F :=
  fun q => if q = protocol then some factory else m q

/-- `Load` (`ping.go` lines 29-31): map lookup. -/
def Load {F : Type} (protocol : Protocol) (m : Protocol → Option F) : Option F :=
  m protocol

/-- The Go `Result` summary type (`ping.go` lines 352-361), duration
fields as int64 nanoseconds. -/
structure Result where
  counter : Int
  successCounter : Int
  minDuration : Int
  maxDuration : Int
  totalDuration : Int
deriving DecidableEq, Repr

/-- `Result.Avg` (`ping.go` lines 363-369): 0 when `SuccessCounter` is 0,
otherwise `TotalDuration / SuccessCounter` (Go int64 division, truncation
toward zero). -/
def Result.Avg (r : Result) : Int :=
  if r.successCounter = 0 then 0
  else Int.tdiv r.totalDuration r.successCounter

/-- `Result.Failed` (`ping.go` lines 371-374). -/
def Result.Failed (r : Result) : Int :=
  r.counter - r.successCounter

/-- The accumulator invariant stated by the spec (§3): the failure count
is bounded by the total count, and the running minimum is at most the
running maximum once at least one probe has completed. -/
def accInv (p : Pinger) : Prop :=
  0 ≤ p.total ∧ 0 ≤ p.failedTotal ∧ p.failedTotal ≤ p.total ∧
    (0 < p.total → p.minDuration ≤ p.maxDuration)

/-- Sample probe outcome: a successful probe (7ns round trip). -/
def stOk : Stats := ⟨true, none, 7, 1, "127.0.0.1:80", [], none⟩

/-- Sample probe outcome: a failed probe (`io.EOF`, 3ns). -/
def stErr : Stats := ⟨false, some GoError.eof, 3, 1, "127.0.0.1:80", [], none⟩

/-- Sample probe outcome: a probe cancelled by the operator
(`context.Canceled`). -/
def stCancel : Stats := ⟨false, some GoError.canceled, 5, 1, "127.0.0.1:80", [], none⟩

/-- Sample probe outcome: an unrecognized error together with a non-nil
extra block. -/
def stBoom : Stats := ⟨false, some (GoError.basic "boom"), 5, 1, "127.0.0.1:80", [], some "tls: 1.3"⟩

theorem tailStructured_sound : ∀ (e : GoError) (c : String),
    tailStructured e = some c → formatErrorTail e = c := by
  intro e c h
  unfold tailStructured at h
  unfold formatErrorTail
  split_ifs at h ⊢ <;> try simp_all
  split at h <;> try simp_all
  split_ifs at h ⊢ <;> simp_all

theorem structuredChecks_sound_n (n : Nat) : ∀ (ts : String) (e : GoError),
    sizeOf e ≤ n → ∀ c, structuredChecks ts e = some c → formatErrorCore ts e = c := by
  induction n with
  | zero =>
    intro ts e he c h
    cases e <;> simp at he
  | succ n ih =>
    intro ts e he c h
    cases e
    case urlErr op u inner =>
      simp only [structuredChecks, formatErrorCore] at h ⊢
      split_ifs at h ⊢ <;> try simp_all
      exact ih ts inner (by have := GoError.urlErr.sizeOf_spec op u inner; omega) c h
    case opErr op inner =>
      cases inner
      case syscallErr s ie =>
        simp only [structuredChecks, formatErrorCore, GoError.isNetError] at h ⊢
        split_ifs at h ⊢ <;> try simp_all
        exact ih ts ie (by
          have h1 := GoError.opErr.sizeOf_spec op (GoError.syscallErr s ie)
          have h2 := GoError.syscallErr.sizeOf_spec s ie
          omega) c h
      all_goals
        simp only [structuredChecks, formatErrorCore] at h ⊢
        split_ifs at h ⊢ <;> try simp_all
        all_goals try exact tailStructured_sound _ _ h
    all_goals
      simp only [structuredChecks, formatErrorCore] at h ⊢
      split_ifs at h ⊢ <;> try simp_all
      all_goals try exact tailStructured_sound _ _ h

theorem formatErrorCore_wrapped_deadline (ts m1 m2 m3 m4 : String) :
    formatErrorCore ts (.wrapf m1 m2 (.wrapf m3 m4 .deadlineExceeded)) = ts := by
  simp [formatErrorCore, GoError.isNetError, goErrorsIs]

theorem formatErrorCore_basic (ts t : String) :
    formatErrorCore ts (.basic t) = substFallback t := by
  simp [formatErrorCore, GoError.isNetError, goErrorsIs, formatErrorTail,
    GoError.errorText, tailStructured]

set_option maxHeartbeats 2000000 in
theorem substFallback_eq_firstMatch (t : String) :
    substFallback t = (firstMatchCat t).getD t := by
  simp only [substFallback, firstMatchCat, substTable, firstMatchIn]
  split_ifs <;> rfl

theorem logStats_fst (url : String) (p : Pinger) (s : Stats) :
    (logStats url p s).1 =
      { p with minDuration := min p.minDuration s.duration,
               maxDuration := max p.maxDuration s.duration,
               totalDuration := wrap64 (p.totalDuration + s.duration),
               failedTotal := p.failedTotal + (if s.error.isSome then 1 else 0) } := by
  cases p
  simp only [logStats, min_def, max_def]
  split_ifs <;> simp_all <;> omega

theorem foldTick_eq (url : String) (p : Pinger) (s : Stats) :
    foldTick url p s =
      { p with minDuration := min p.minDuration s.duration,
               maxDuration := max p.maxDuration s.duration,
               totalDuration := wrap64 (p.totalDuration + s.duration),
               failedTotal := p.failedTotal + (if s.error.isSome then 1 else 0),
               total := p.total + 1 } := by
  simp [foldTick, logStats_fst]

theorem wrap64_eq_self (x : Int) (h1 : int64Min ≤ x) (h2 : x ≤ int64Max) : wrap64 x = x := by
  unfold wrap64 int64Min int64Max at *
  rw [Int.emod_eq_of_lt (by omega) (by omega)]
  omega

theorem foldTicks_nil (url : String) (p : Pinger) : foldTicks url p [] = p := rfl

theorem foldTicks_cons (url : String) (p : Pinger) (s : Stats) (ss : List Stats) :
    foldTicks url p (s :: ss) = foldTicks url (foldTick url p s) ss := rfl

theorem foldTicks_counter (url : String) (ss : List Stats) : ∀ (p : Pinger),
    (foldTicks url p ss).counter = p.counter := by
  induction ss with
  | nil => intro p; rfl
  | cons s ss ih => intro p; rw [foldTicks_cons, ih, foldTick_eq]

theorem foldTicks_total (url : String) (ss : List Stats) : ∀ (p : Pinger),
    (foldTicks url p ss).total = p.total + ss.length := by
  induction ss with
  | nil => intro p; simp [foldTicks_nil]
  | cons s ss ih =>
    intro p
    rw [foldTicks_cons, ih, foldTick_eq]
    simp; omega

theorem foldTicks_failed (url : String) (ss : List Stats) : ∀ (p : Pinger),
    (foldTicks url p ss).failedTotal =
      p.failedTotal + ((ss.filter (fun s => s.error.isSome)).length : Int) := by
  induction ss with
  | nil => intro p; simp [foldTicks_nil]
  | cons s ss ih =>
    intro p
    rw [foldTicks_cons, ih, foldTick_eq]
    by_cases h : s.error.isSome <;> simp [h, List.filter_cons] <;> omega

theorem foldTicks_min (url : String) (ss : List Stats) : ∀ (p : Pinger),
    (foldTicks url p ss).minDuration = (ss.map (fun s => s.duration)).foldl min p.minDuration := by
  induction ss with
  | nil => intro p; rfl
  | cons s ss ih =>
    intro p
    rw [foldTicks_cons, ih, foldTick_eq]
    simp [List.foldl_cons, min_def, inf_eq_min]

theorem foldTicks_max (url : String) (ss : List Stats) : ∀ (p : Pinger),
    (foldTicks url p ss).maxDuration = (ss.map (fun s => s.duration)).foldl max p.maxDuration := by
  induction ss with
  | nil => intro p; rfl
  | cons s ss ih =>
    intro p
    rw [foldTicks_cons, ih, foldTick_eq]
    simp [List.foldl_cons, max_def, sup_eq_max]

theorem foldTicks_totalDur (url : String) (ss : List Stats) : ∀ (p : Pinger),
    (∀ s ∈ ss, 0 ≤ s.duration) → 0 ≤ p.totalDuration →
    p.totalDuration + (ss.map (fun s => s.duration)).sum ≤ int64Max →
    (foldTicks url p ss).totalDuration = p.totalDuration + (ss.map (fun s => s.duration)).sum := by
  induction ss with
  | nil => intro p _ _ _; simp [foldTicks_nil]
  | cons s ss ih =>
    intro p hall hp hsum
    have hd : 0 ≤ s.duration := hall s (by simp)
    have hrest : 0 ≤ (ss.map (fun s => s.duration)).sum :=
      List.sum_nonneg (by intro x hx; obtain ⟨t, ht, rfl⟩ := List.mem_map.mp hx; exact hall t (by simp [ht]))
    simp only [List.map_cons, List.sum_cons] at hsum ⊢
    have hmin : int64Min ≤ p.totalDuration + s.duration := by unfold int64Min; omega
    have hmax : p.totalDuration + s.duration ≤ int64Max := by omega
    have hstep : (foldTick url p s).totalDuration = p.totalDuration + s.duration := by
      rw [foldTick_eq]; simpa using wrap64_eq_self _ hmin hmax
    rw [foldTicks_cons, ih _ (fun t ht => hall t (by simp [ht])) (by rw [hstep]; omega)
      (by rw [hstep]; omega), hstep]
    omega

theorem accInv_foldTick (url : String) (p : Pinger) (s : Stats)
    (h : accInv p) : accInv (foldTick url p s) := by
  obtain ⟨h1, h2, h3, h4⟩ := h
  rw [foldTick_eq]
  unfold accInv
  dsimp only
  refine ⟨by omega, by split_ifs <;> omega, by split_ifs <;> omega, fun _ => ?_⟩
  exact le_trans (min_le_right _ _) (le_max_right _ _)

theorem accInv_foldTicks (url : String) (ss : List Stats) : ∀ (p : Pinger),
    accInv p → accInv (foldTicks url p ss) := by
  induction ss with
  | nil => intro p h; exact h
  | cons s ss ih => intro p h; exact ih _ (accInv_foldTick url p s h)

theorem accInv_init (i c : Int) : accInv (pingerInit i c) := by
  unfold accInv pingerInit
  norm_num

theorem runLoop_ticks_bounded (url : String) (ss : List Stats) : ∀ (p : Pinger),
    0 < p.counter → p.total ≤ p.counter - 1 → p.counter - p.total ≤ (ss.length : Int) →
    (runLoop url p (ss.map LoopEvent.tick)).2 = true ∧
    (runLoop url p (ss.map LoopEvent.tick)).1.total = p.counter := by
  induction ss with
  | nil => intro p h1 h2 h3; simp at h3; omega
  | cons s ss ih =>
    intro p h1 h2 h3
    simp only [List.map_cons, runLoop]
    have hc : (foldTick url p s).counter = p.counter := by rw [foldTick_eq]
    have ht : (foldTick url p s).total = p.total + 1 := by rw [foldTick_eq]
    by_cases hstop : (foldTick url p s).counter > 0 ∧ (foldTick url p s).total > (foldTick url p s).counter - 1
    · simp only [if_pos hstop]
      refine ⟨by simp, ?_⟩
      dsimp only
      omega
    · simp only [if_neg hstop]
      have := ih (foldTick url p s) (by omega) (by omega) (by simp at h3 ⊢; omega)
      exact ⟨this.1, by rw [this.2, hc]⟩

theorem runLoop_ticks_unbounded (url : String) (ss : List Stats) : ∀ (p : Pinger),
    p.counter ≤ 0 → runLoop url p (ss.map LoopEvent.tick) = (foldTicks url p ss, false) := by
  induction ss with
  | nil => intro p _; rfl
  | cons s ss ih =>
    intro p h
    have hc : (foldTick url p s).counter = p.counter := by rw [foldTick_eq]
    simp only [List.map_cons, runLoop]
    rw [if_neg (by omega), ih _ (by omega), foldTicks_cons]

theorem runLoop_exit (url : String) (evs : List LoopEvent) : ∀ (p q : Pinger),
    runLoop url p evs = (q, true) →
    LoopEvent.stopSig ∈ evs ∨ (0 < p.counter ∧ p.counter ≤ q.total) := by
  induction evs with
  | nil => intro p q h; simp [runLoop] at h
  | cons ev evs ih =>
    intro p q h
    cases ev with
    | stopSig => exact Or.inl (List.mem_cons_self _ _)
    | tick s =>
      have hc : (foldTick url p s).counter = p.counter := by rw [foldTick_eq]
      rw [runLoop] at h
      by_cases hstop : (foldTick url p s).counter > 0 ∧ (foldTick url p s).total > (foldTick url p s).counter - 1
      · rw [if_pos hstop] at h
        have hq : q = foldTick url p s := by cases h; rfl
        subst hq
        exact Or.inr ⟨by omega, by omega⟩
      · rw [if_neg hstop] at h
        rcases ih _ _ h with hmem | hcnt
        · exact Or.inl (List.mem_cons_of_mem _ hmem)
        · exact Or.inr ⟨by omega, by omega⟩

theorem pingerStop_idem (st : StopCtl) : pingerStop (pingerStop st) = pingerStop st := by
  unfold pingerStop
  by_cases h : st.onceDone <;> simp [h]

theorem load_foldRegister_of_notMem {F : Type} (q : Protocol) (rs : List (Protocol × F)) :
    ∀ (m : Protocol → Option F), q ∉ rs.map Prod.fst →
    Load q (rs.foldl (fun m pf => Register pf.1 pf.2 m) m) = Load q m := by
  induction rs with
  | nil => intro m _; rfl
  | cons pf rs ih =>
    intro m hq
    simp only [List.map_cons, List.mem_cons] at hq
    push_neg at hq
    rw [List.foldl_cons, ih _ hq.2]
    simp [Load, Register, hq.1]

/-- Claim C1 (counterexample). The claim states that the failure count is
incremented iff the error is non-nil AND not the cancellation category.
The code (`ping.go` lines 324-329) increments `failedTotal` before the
cancellation check, so a probe whose error IS `context.Canceled` is also
tallied as a failure: folding the cancelled outcome `stCancel` into a
fresh accumulator yields `failedTotal = 1`, where the claim predicts 0. -/
theorem tcping_C1_counterexample :
    stCancel.error.isSome = true ∧
    isCancelError stCancel.error = true ∧
    (foldTick "tcp://example.com:80" (pingerInit 1000000000 4) stCancel).failedTotal = 1 ∧
    ¬ (foldTick "tcp://example.com:80" (pingerInit 1000000000 4) stCancel).failedTotal = 0 := by
  refine ⟨rfl, rfl, ?_, ?_⟩ <;> decide

/-- Claim C1 (amended). `Pinger.logStats` increments the failure count iff
the error of the record is non-nil — including the cancellation category —
and every folded record (cancelled or not) counts toward the total probe
count incremented by the `Pinger.Ping` loop. -/
theorem tcping_C1_failure_tally (url : String) (p : Pinger) (s : Stats) :
    (logStats url p s).1.failedTotal = p.failedTotal + (if s.error.isSome then 1 else 0) ∧
    (foldTick url p s).total = p.total + 1 := by
  rw [logStats_fst, foldTick_eq]
  exact ⟨rfl, rfl⟩

/-- Claim C2. The claim states that `Pinger.Summarize` after folding zero
probes does not perform an unguarded division by zero. The code
(`ping.go` line 211) computes `p.totalDuration / time.Duration(p.total)`
with no guard: after folding zero probes `total = 0` and the division
faults (a Go runtime panic), contradicting the claim and the spec
(`division-by-zero must be guarded`); the sibling `Result.Avg` does guard,
showing the intent. -/
theorem tcping_C2_div_fault (i c : Int) (url : String) :
    foldTicks url (pingerInit i c) [] = pingerInit i c ∧
    (pingerInit i c).total = 0 ∧
    summarizeAvg (pingerInit i c) = Except.error "runtime error: integer divide by zero" :=
  ⟨rfl, rfl, rfl⟩

/-- Claim C3. The `Pinger.Ping` loop honors the counter bound: with
`counter = n > 0` and no stop signal, exactly `n` probes are invoked and
the loop leaves the running state by itself; with `n ≤ 0` the loop never
stops on its own (it folds every tick and keeps running); and whenever the
loop has left the running state, either a stop signal was consumed or the
counter was positive and exhausted — these are the only exits. -/
theorem tcping_C3_scheduler_bound :
    (∀ (url : String) (i n : Int) (ss : List Stats), 0 < n → n ≤ (ss.length : Int) →
      (runLoop url (pingerInit i n) (ss.map LoopEvent.tick)).2 = true ∧
      (runLoop url (pingerInit i n) (ss.map LoopEvent.tick)).1.total = n) ∧
    (∀ (url : String) (i n : Int) (ss : List Stats), n ≤ 0 →
      runLoop url (pingerInit i n) (ss.map LoopEvent.tick) = (foldTicks url (pingerInit i n) ss, false) ∧
      (foldTicks url (pingerInit i n) ss).total = ss.length) ∧
    (∀ (url : String) (p q : Pinger) (evs : List LoopEvent),
      runLoop url p evs = (q, true) →
      LoopEvent.stopSig ∈ evs ∨ (0 < p.counter ∧ p.counter ≤ q.total)) := by
  refine ⟨?_, ?_, ?_⟩
  · intro url i n ss hn hlen
    have hc : (pingerInit i n).counter = n := rfl
    have ht : (pingerInit i n).total = 0 := rfl
    have h := runLoop_ticks_bounded url ss (pingerInit i n) (by omega) (by omega) (by omega)
    exact ⟨h.1, by rw [h.2, hc]⟩
  · intro url i n ss hn
    have hc : (pingerInit i n).counter = n := rfl
    have ht : (pingerInit i n).total = 0 := rfl
    refine ⟨runLoop_ticks_unbounded url ss _ (by omega), ?_⟩
    rw [foldTicks_total]
    omega
  · exact fun url p q evs h => runLoop_exit url evs p q h

/-- Claim C3 (witness): the bounded case at `counter = 2` over two ticks,
the unbounded case at `counter = 0` over one tick, and the exit lemma at a
one-event stop-signal schedule. -/
theorem tcping_C3_scheduler_bound_witness :
    ((runLoop "tcp://example.com:80" (pingerInit 1 2) ([stOk, stErr].map LoopEvent.tick)).2 = true ∧
     (runLoop "tcp://example.com:80" (pingerInit 1 2) ([stOk, stErr].map LoopEvent.tick)).1.total = 2) ∧
    (runLoop "tcp://example.com:80" (pingerInit 1 0) ([stOk].map LoopEvent.tick)
        = (foldTicks "tcp://example.com:80" (pingerInit 1 0) [stOk], false) ∧
     (foldTicks "tcp://example.com:80" (pingerInit 1 0) [stOk]).total = 1) ∧
    (LoopEvent.stopSig ∈ [LoopEvent.stopSig] ∨
      (0 < (pingerInit 1 3).counter ∧ (pingerInit 1 3).counter ≤ (pingerInit 1 3).total)) :=
  ⟨tcping_C3_scheduler_bound.1 "tcp://example.com:80" 1 2 [stOk, stErr] (by decide) (by decide),
   tcping_C3_scheduler_bound.2.1 "tcp://example.com:80" 1 0 [stOk] (by decide),
   tcping_C3_scheduler_bound.2.2 "tcp://example.com:80" (pingerInit 1 3) (pingerInit 1 3)
     [LoopEvent.stopSig] (by decide)⟩

/-- Claim C4. In the error normalizer: a deadline-exceeded cause nested two
wrapper levels deep normalizes to the timed-out category whatever the
wrapper texts contain (both for `FormatError` and for the `Pinger` variant);
the structured (typed-cause) checks always take precedence — whenever one
of them fires the normalizer returns its category, so no substring match is
consulted; a plain (untyped) error resolves by first-match-wins over the
fixed ordered substring table; and when no phrase of the table occurs the
original error text is returned unmodified. -/
theorem tcping_C4_normalizer_order :
    (∀ m1 m2 m3 m4 : String,
      FormatError (.wrapf m1 m2 (.wrapf m3 m4 .deadlineExceeded)) = "连接超时" ∧
      pingerFormatError (.wrapf m1 m2 (.wrapf m3 m4 .deadlineExceeded)) = "超时") ∧
    (∀ (ts : String) (e : GoError) (c : String),
      structuredChecks ts e = some c → formatErrorCore ts e = c) ∧
    (∀ t : String, FormatError (.basic t) = (firstMatchCat t).getD t) ∧
    (∀ t : String, firstMatchCat t = none → FormatError (.basic t) = t) := by
  have hbasic : ∀ t : String, FormatError (.basic t) = (firstMatchCat t).getD t := by
    intro t
    rw [show FormatError (.basic t) = formatErrorCore "连接超时" (.basic t) from rfl,
      formatErrorCore_basic, substFallback_eq_firstMatch]
  refine ⟨?_, ?_, hbasic, ?_⟩
  · intro m1 m2 m3 m4
    exact ⟨formatErrorCore_wrapped_deadline _ _ _ _ _, formatErrorCore_wrapped_deadline _ _ _ _ _⟩
  · intro ts e c h
    exact structuredChecks_sound_n (sizeOf e) ts e (le_refl _) c h
  · intro t h
    rw [hbasic, h]
    rfl

/-- Claim C4 (witness): a deadline cause nested two levels deep under
wrapper text that itself contains the matched phrase `no such host` still
normalizes to the timed-out category; the structured DNS cause decides an
`OpError` chain; and an unmatched plain text passes through unmodified. -/
theorem tcping_C4_normalizer_order_witness :
    FormatError (.wrapf "read tcp: no such host " "" (.wrapf "x: " "" .deadlineExceeded)) = "连接超时" ∧
    formatErrorCore "连接超时" (.opErr "read" (.dnsErr "lookup nohost" false false)) = "域名解析错误" ∧
    FormatError (.basic "nothing to match") = "nothing to match" :=
  ⟨(tcping_C4_normalizer_order.1 "read tcp: no such host " "" "x: " "").1,
   tcping_C4_normalizer_order.2.1 "连接超时" (.opErr "read" (.dnsErr "lookup nohost" false false))
     "域名解析错误" (by decide),
   tcping_C4_normalizer_order.2.2.2 "nothing to match" (by decide)⟩

/-- Claim C5. Folding any nonempty sequence of probe outcomes — failed
records as well as successful ones — leaves the accumulator minimum equal
to the least duration, the maximum equal to the greatest duration, and the
cumulative total equal to the sum of the durations, provided every
duration is a valid non-negative int64 and the sum does not overflow. -/
theorem tcping_C5_min_max_total (url : String) (i c : Int) (ss : List Stats)
    (hne : ss ≠ [])
    (hb : ∀ s ∈ ss, 0 ≤ s.duration ∧ s.duration ≤ int64Max)
    (hsum : (ss.map (fun s => s.duration)).sum ≤ int64Max) :
    (ss.map (fun s => s.duration)).min? = some ((foldTicks url (pingerInit i c) ss).minDuration) ∧
    (ss.map (fun s => s.duration)).max? = some ((foldTicks url (pingerInit i c) ss).maxDuration) ∧
    (foldTicks url (pingerInit i c) ss).totalDuration = (ss.map (fun s => s.duration)).sum := by
  obtain ⟨s0, ss2, rfl⟩ := List.exists_cons_of_ne_nil hne
  have hd0 := hb s0 (by simp)
  refine ⟨?_, ?_, ?_⟩
  · rw [foldTicks_min]
    simp only [List.map_cons, List.foldl_cons, List.min?]
    rw [show min (pingerInit i c).minDuration s0.duration = s0.duration from min_eq_right hd0.2]
  · rw [foldTicks_max]
    simp only [List.map_cons, List.foldl_cons, List.max?]
    rw [show max (pingerInit i c).maxDuration s0.duration = s0.duration from max_eq_right hd0.1]
  · have h0 : (pingerInit i c).totalDuration = 0 := rfl
    have hgoal := foldTicks_totalDur url (s0 :: ss2) (pingerInit i c)
      (fun s hs => (hb s hs).1) (by rw [h0]) (by rw [h0]; omega)
    rw [hgoal, h0, zero_add]

/-- Claim C5 (witness): folding a success (7ns) and a failure (3ns) gives
minimum 3, maximum 7 and total 10. -/
theorem tcping_C5_min_max_total_witness :
    ([stOk, stErr].map (fun s => s.duration)).min?
        = some ((foldTicks "tcp://example.com:80" (pingerInit 1 0) [stOk, stErr]).minDuration) ∧
    ([stOk, stErr].map (fun s => s.duration)).max?
        = some ((foldTicks "tcp://example.com:80" (pingerInit 1 0) [stOk, stErr]).maxDuration) ∧
    (foldTicks "tcp://example.com:80" (pingerInit 1 0) [stOk, stErr]).totalDuration
        = ([stOk, stErr].map (fun s => s.duration)).sum :=
  tcping_C5_min_max_total "tcp://example.com:80" 1 0 [stOk, stErr]
    (by decide) (by decide) (by decide)

/-- Claim C6. Every fold step preserves the accumulator invariant
(`0 ≤ failedTotal ≤ total`, and `minDuration ≤ maxDuration` once at least
one probe has completed), and after folding any sequence of `N` outcomes
from the initial accumulator, `total = N` and the invariant holds. -/
theorem tcping_C6_invariant :
    (∀ (url : String) (p : Pinger) (s : Stats), accInv p → accInv (foldTick url p s)) ∧
    (∀ (url : String) (i c : Int) (ss : List Stats),
      (foldTicks url (pingerInit i c) ss).total = ss.length ∧
      accInv (foldTicks url (pingerInit i c) ss)) := by
  refine ⟨accInv_foldTick, ?_⟩
  intro url i c ss
  have ht : (pingerInit i c).total = 0 := rfl
  refine ⟨by rw [foldTicks_total]; omega, ?_⟩
  exact accInv_foldTicks url ss _ (accInv_init i c)

/-- Claim C6 (witness): the step-preservation applied to the initial
accumulator and a failed probe outcome. -/
theorem tcping_C6_invariant_witness :
    accInv (foldTick "tcp://example.com:80" (pingerInit 1 0) stErr) :=
  tcping_C6_invariant.1 "tcp://example.com:80" (pingerInit 1 0) stErr (accInv_init 1 0)

/-- Claim C7. `Pinger.Stop` is idempotent: stopping an already-stopped (or
any) control state twice leaves exactly the state of stopping it once, and
more generally any `n ≥ 1` stop requests equal a single one — the first
stop wins (the `sync.Once` guard runs the channel close only once). -/
theorem tcping_C7_stop_idempotent :
    (∀ st : StopCtl, pingerStop (pingerStop st) = pingerStop st) ∧
    (∀ (st : StopCtl) (n : Nat), 1 ≤ n → pingerStop^[n] st = pingerStop st) := by
  refine ⟨pingerStop_idem, ?_⟩
  intro st n hn
  induction n with
  | zero => exact absurd hn (by omega)
  | succ k ih =>
    rcases Nat.eq_zero_or_pos k with h0 | hk
    · subst h0; simp
    · rw [Function.iterate_succ_apply', ih hk, pingerStop_idem]

/-- Claim C7 (witness): three stop requests on a fresh Pinger control state
equal a single one. -/
theorem tcping_C7_stop_idempotent_witness :
    pingerStop^[3] (StopCtl.mk false false) = pingerStop (StopCtl.mk false false) :=
  tcping_C7_stop_idempotent.2 (StopCtl.mk false false) 3 (by decide)

/-- Claim C8. In the protocol registry, registering twice under the same
identifier silently overwrites — `Load` returns the last factory — and
`Load` of an identifier absent from every registration returns the absence
value (`none`, the nil factory of a Go map miss). -/
theorem tcping_C8_registry :
    (∀ (F : Type) (p : Protocol) (f1 f2 : F) (m : Protocol → Option F),
      Load p (Register p f2 (Register p f1 m)) = some f2) ∧
    (∀ (F : Type) (q : Protocol) (rs : List (Protocol × F)), q ∉ rs.map Prod.fst →
      Load q (rs.foldl (fun m pf => Register pf.1 pf.2 m) emptyRegistry) = none) := by
  constructor
  · intro F p f1 f2 m
    simp [Load, Register]
  · intro F q rs hq
    rw [load_foldRegister_of_notMem q rs emptyRegistry hq]
    rfl

/-- Claim C8 (witness): re-registering TCP overwrites, and loading HTTP
from a registry holding only TCP yields the absence value. -/
theorem tcping_C8_registry_witness :
    Load TCP (Register TCP "f2" (Register TCP "f1" emptyRegistry)) = some "f2" ∧
    Load HTTP ([(TCP, "f1")].foldl (fun m pf => Register pf.1 pf.2 m) emptyRegistry) = none :=
  ⟨tcping_C8_registry.1 String TCP "f1" "f2" emptyRegistry,
   tcping_C8_registry.2 String HTTP [(TCP, "f1")] (by decide)⟩

/-- Claim C9. `Result.Avg` returns 0 when `SuccessCounter` is 0, and
otherwise the truncated quotient of `TotalDuration` by `SuccessCounter`
(characterized by the division inequalities for non-negative durations) —
dividing by the count of successful probes only, while the average printed
by `Pinger.Summarize` divides the cumulative duration by the total attempt
count. -/
theorem tcping_C9_result_avg :
    (∀ r : Result, r.successCounter = 0 → Result.Avg r = 0) ∧
    (∀ r : Result, 0 < r.successCounter → 0 ≤ r.totalDuration →
      Result.Avg r * r.successCounter ≤ r.totalDuration ∧
      r.totalDuration < (Result.Avg r + 1) * r.successCounter) ∧
    (∀ p : Pinger, p.total ≠ 0 → summarizeAvg p = Except.ok (Int.tdiv p.totalDuration p.total)) := by
  refine ⟨?_, ?_, ?_⟩
  · intro r h; simp [Result.Avg, h]
  · intro r hS hT
    have hAvg : Result.Avg r = r.totalDuration / r.successCounter := by
      unfold Result.Avg
      rw [if_neg (by omega)]
      exact Int.tdiv_eq_ediv hT (by omega)
    have h1 := Int.ediv_add_emod r.totalDuration r.successCounter
    have h2 := Int.emod_nonneg r.totalDuration (by omega : r.successCounter ≠ 0)
    have h3 := Int.emod_lt_of_pos r.totalDuration hS
    constructor <;> rw [hAvg] <;> nlinarith [h1, h2, h3]
  · intro p h; simp [summarizeAvg, h]

/-- Claim C9 (witness): a Result with no successes averages to 0; with 3
successes and 100ns total the division bounds hold; and a Pinger with 2
attempts averages its cumulative 12ns over the 2 attempts. -/
theorem tcping_C9_result_avg_witness :
    Result.Avg (Result.mk 5 0 1 2 100) = 0 ∧
    (Result.Avg (Result.mk 5 3 1 2 100) * (Result.mk 5 3 1 2 100).successCounter
        ≤ (Result.mk 5 3 1 2 100).totalDuration ∧
     (Result.mk 5 3 1 2 100).totalDuration
        < (Result.Avg (Result.mk 5 3 1 2 100) + 1) * (Result.mk 5 3 1 2 100).successCounter) ∧
    summarizeAvg (Pinger.mk 1 0 5 7 12 2 1) = Except.ok (Int.tdiv 12 2) :=
  ⟨tcping_C9_result_avg.1 (Result.mk 5 0 1 2 100) rfl,
   tcping_C9_result_avg.2.1 (Result.mk 5 3 1 2 100) (by decide) (by decide),
   tcping_C9_result_avg.2.2 (Pinger.mk 1 0 5 7 12 2 1) (by decide)⟩

/-- Claim C10 (counterexample). The claim states that every non-cancel
error produces exactly one printed line. A failed probe that carries a
non-nil `Extra` block (`stBoom`) produces two: the per-probe line and the
extra block line. -/
theorem tcping_C10_counterexample :
    stBoom.error.isSome = true ∧
    isCancelError stBoom.error = false ∧
    linesWritten (logStats "tcp://example.com:80" (pingerInit 1000000000 4) stBoom).2 = 2 ∧
    ¬ linesWritten (logStats "tcp://example.com:80" (pingerInit 1000000000 4) stBoom).2 = 1 := by
  refine ⟨rfl, rfl, ?_, ?_⟩ <;> decide

/-- Claim C10 (amended). For a folded record whose error is (or wraps) the
cancellation error, `Pinger.logStats` updates the counters but writes
nothing to the output stream; for every other non-nil error it writes
exactly one per-probe line, plus one additional line exactly when the
record carries a non-nil `Extra` block. -/
theorem tcping_C10_cancel_silent (url : String) (p : Pinger) (s : Stats) (g : GoError)
    (he : s.error = some g) :
    (goErrorsIs g GoError.canceled = true → (logStats url p s).2 = []) ∧
    (goErrorsIs g GoError.canceled = false →
      linesWritten (logStats url p s).2 = 1 + (if s.extra.isSome then 1 else 0)) := by
  unfold logStats
  rw [he]
  simp only [isCancelError]
  constructor
  · intro hc
    simp [hc]
  · intro hc
    simp only [hc, if_neg, Bool.false_eq_true, if_false]
    unfold linesWritten
    cases hx : s.extra <;>
      by_cases hm : s.meta.length > 0 <;>
        simp [hm, endsLine, List.filter_append]

/-- Claim C10 (witness): a cancelled probe writes nothing; the failed probe
`stBoom` (non-cancel error, with an extra block) writes two lines. -/
theorem tcping_C10_cancel_silent_witness :
    (logStats "tcp://example.com:80" (pingerInit 1 0) stCancel).2 = [] ∧
    linesWritten (logStats "tcp://example.com:80" (pingerInit 1 0) stBoom).2
      = 1 + (if stBoom.extra.isSome then 1 else 0) :=
  ⟨(tcping_C10_cancel_silent "tcp://example.com:80" (pingerInit 1 0) stCancel
      GoError.canceled rfl).1 (by decide),
   (tcping_C10_cancel_silent "tcp://example.com:80" (pingerInit 1 0) stBoom
      (GoError.basic "boom") rfl).2 (by decide)⟩
